import Mathlib

/-!
# Verification of `bias_aware_gridsearch.py`

A shallow embedding of the `BiasAwareGridSearchCV` class from
`src/bias_aware_gridsearch.py` together with theorems settling the
specification claims about it.

Modelling conventions:
* Python floats carrying accuracy/bias scores become `ℚ`.
* The external capabilities (the estimator's `clone`/`set_params`/`fit`/
  `predict`, `accuracy_score`, and the fairness metric) are abstracted:
  the whole per-fold body of `fit`'s inner loop (lines 47-63 of the
  source) is a parameter `evalFold : Params → F → Except ε (ℚ × ℚ)`
  yielding the fold's `(accuracy, bias)` pair or failing, where `F` is
  the abstract type of fold partitions produced by `KFold.split`.
* Python exceptions become `Except`; a raised exception propagating out
  of a method becomes an `.error` result.  `PyError` covers the runtime
  errors the selection methods can themselves produce.
* `pandas.DataFrame` becomes `DF`: a column list, a row count and a cell
  function; `df.drop(columns=[c])` removes `c` from the column list and
  keeps every row.
* Fitting the final model (`model.fit(features, target)` in
  `_retrain_model`) is recorded as a `FittedModel` value capturing the
  cloned base estimator, the applied parameters, and exactly the data
  the `fit` call received.
-/

/-- An evaluation record, one element of the Python list `self.results_`:
the dict `\x7b'params': params, 'accuracy': avg_accuracy, 'bias': avg_bias\x7d`
appended at lines 68-72 of the source. -/
structure Record (P : Type) where
  params : P
  accuracy : ℚ
  bias : ℚ
  deriving DecidableEq, Repr

/-- A `pandas.DataFrame`: named columns, a row count, and a cell lookup. -/
structure DF (V : Type) where
  cols : List String
  nrows : ℕ
  cell : ℕ → String → V

/-- `df.drop(columns=cs)`: removes the named columns, keeps all rows. -/
def DF.dropColumns {V : Type} (df : DF V) (cs : List String) : DF V :=
  { df with cols := df.cols.filter (fun c => ¬ c ∈ cs) }

/-- `df[c]`: the column `c` as a list of `df.nrows` values. -/
def DF.col {V : Type} (df : DF V) (c : String) : List V :=
  (List.range df.nrows).map (fun i => df.cell i c)

/-- Runtime errors raised by the selection methods themselves:
`ValueError` (what CPython's `min`/`max` raise on an empty sequence) and
`NotImplementedError` (never raised by this code, but named by the spec's
error taxonomy). -/
inductive PyError where
  | valueError
  | notImplementedError
  deriving DecidableEq, Repr

/-- The state of a `BiasAwareGridSearchCV` object, mirroring `__init__`
(lines 9-31 of the source).  `E` is the opaque estimator capability type,
`V` the type of hyperparameter values and data cells. -/
structure BiasAwareGridSearchCV (E V : Type) where
  estimator : E
  param_grid : List (String × List V)
  df : DF V
  outcome_column : String
  protected_attribute : String
  privileged_value : V
  unprivileged_value : V
  cv : ℕ
  results_ : List (Record (List (String × V)))

/-- The outcome of `_retrain_model` (lines 108-120): a fresh clone of the
base estimator, the applied configuration, and the exact feature table and
target column the final `model.fit` call received. -/
structure FittedModel (E V : Type) where
  base : E
  params : List (String × V)
  trainFeatures : DF V
  trainTarget : List V

/-- Cartesian product of per-parameter value lists, in the fixed order
`itertools.product` uses (later parameters vary fastest). -/
def gridCartesian {V : Type} : List (String × List V) → List (List (String × V))
  | [] => [[]]
  | (k, vs) :: rest =>
      vs.flatMap (fun v => (gridCartesian rest).map (fun tail => (k, v) :: tail))

/-- The key-ordering `sklearn.model_selection.ParameterGrid` imposes:
`sorted(grid.items())` sorts parameter names lexicographically. -/
def keyLE {V : Type} (a b : String × List V) : Prop := a.1 ≤ b.1

instance {V : Type} : DecidableRel (@keyLE V) :=
  fun a b => inferInstanceAs (Decidable (a.1 ≤ b.1))

/-- `ParameterGrid(param_grid)` as iterated at line 42 of the source:
deterministic enumeration of the Cartesian product of the per-parameter
value lists, parameter names in sorted order. -/
def ParameterGrid {V : Type} (grid : List (String × List V)) :
    List (List (String × V)) :=
  gridCartesian (grid.insertionSort keyLE)

/-- `np.mean` of a list of rationals. -/
def npMean (l : List ℚ) : ℚ := l.sum / l.length

/-- The inner fold loop of `fit` (lines 43-63): run `evalFold` on each
fold partition in order, accumulating the per-fold accuracy list and bias
list; the first capability failure aborts the whole loop. -/
def foldMetrics {F ε : Type} (evalFold : F → Except ε (ℚ × ℚ)) :
    List F → Except ε (List ℚ × List ℚ)
  | [] => .ok ([], [])
  | f :: fs =>
      match evalFold f with
      | .error e => .error e
      | .ok (a, b) =>
          match foldMetrics evalFold fs with
          | .error e => .error e
          | .ok (as, bs) => .ok (a :: as, b :: bs)

/-- Evaluation of one configuration (lines 43-66): fold metrics followed
by `np.mean` aggregation into `(avg_accuracy, avg_bias)`. -/
def evalConfig {F ε : Type} (folds : List F) (evalFold : F → Except ε (ℚ × ℚ)) :
    Except ε (ℚ × ℚ) :=
  match foldMetrics evalFold folds with
  | .error e => .error e
  | .ok (accuracies, biases) => .ok (npMean accuracies, npMean biases)

/-- The configuration loop of `fit` (lines 42-72): for each enumerated
configuration evaluate it and append one record to `results_`; a raised
capability error propagates immediately, leaving the records already
appended in place. -/
def fitLoop {P F ε : Type} (folds : List F)
    (evalFold : P → F → Except ε (ℚ × ℚ)) :
    List P → List (Record P) → List (Record P) × Option ε
  | [], results => (results, none)
  | p :: ps, results =>
      match evalConfig folds (evalFold p) with
      | .error e => (results, some e)
      | .ok (a, b) =>
          fitLoop folds evalFold ps (results ++ [⟨p, a, b⟩])

/-- `fit(X_train, y_train)` (lines 33-72).  `folds` is the sequence of
fold partitions `KFold(n_splits=self.cv).split(X_train)` yields;
`evalFold` is the per-fold evaluation capability.  Returns the updated
object and the propagated exception, if any. -/
def BiasAwareGridSearchCV.fit {E V F ε : Type}
    (self : BiasAwareGridSearchCV E V) (folds : List F)
    (evalFold : List (String × V) → F → Except ε (ℚ × ℚ)) :
    BiasAwareGridSearchCV E V × Option ε :=
  let (res, err) := fitLoop folds evalFold (ParameterGrid self.param_grid) self.results_
  ({ self with results_ := res }, err)

/-- Python's `max(l, key=lambda x: x['accuracy'])` accumulator: the
current best is replaced only on a strictly greater key, so the first
record attaining the maximum wins. -/
def pyMaxAccAux {P : Type} (best : Record P) : List (Record P) → Record P
  | [] => best
  | r :: rs => pyMaxAccAux (if best.accuracy < r.accuracy then r else best) rs

/-- `max(l, key=lambda x: x['accuracy'])`; `ValueError` on an empty list. -/
def pyMaxAcc {P : Type} : List (Record P) → Except PyError (Record P)
  | [] => .error .valueError
  | r :: rs => .ok (pyMaxAccAux r rs)

/-- Python's `min(l, key=lambda x: x['bias'])` accumulator: the current
best is replaced only on a strictly smaller key, so the first record
attaining the minimum wins. -/
def pyMinBiasAux {P : Type} (best : Record P) : List (Record P) → Record P
  | [] => best
  | r :: rs => pyMinBiasAux (if r.bias < best.bias then r else best) rs

/-- `min(l, key=lambda x: x['bias'])`; `ValueError` on an empty list. -/
def pyMinBias {P : Type} : List (Record P) → Except PyError (Record P)
  | [] => .error .valueError
  | r :: rs => .ok (pyMinBiasAux r rs)

/-- The ordering `sorted(results, key=lambda x: x['accuracy'],
reverse=True)` realises: descending accuracy, stable on ties. -/
def accDesc {P : Type} (a b : Record P) : Prop := b.accuracy ≤ a.accuracy

instance {P : Type} : DecidableRel (@accDesc P) :=
  fun a b => inferInstanceAs (Decidable (b.accuracy ≤ a.accuracy))

/-- `sorted(results, key=lambda x: x['accuracy'], reverse=True)` (line
104): CPython's sort is stable, and a stable sort's output is unique, so
stable insertion sort models it exactly. -/
def pySortAccDesc {P : Type} (l : List (Record P)) : List (Record P) :=
  l.insertionSort accDesc

/-- `_retrain_model(params)` (lines 108-120): clone the estimator, apply
`params`, fit on the full stored dataset with the outcome column dropped
from the features and used as the target. -/
def BiasAwareGridSearchCV.retrainModel {E V : Type}
    (self : BiasAwareGridSearchCV E V) (params : List (String × V)) :
    FittedModel E V :=
  { base := self.estimator
    params := params
    trainFeatures := self.df.dropColumns [self.outcome_column]
    trainTarget := self.df.col self.outcome_column }

/-- `select_highest_accuracy_model` (lines 75-83). -/
def BiasAwareGridSearchCV.selectHighestAccuracyModel {E V : Type}
    (self : BiasAwareGridSearchCV E V) : Except PyError (FittedModel E V) :=
  match pyMaxAcc self.results_ with
  | .error e => .error e
  | .ok best => .ok (self.retrainModel best.params)

/-- `select_least_biased_model` (lines 85-93). -/
def BiasAwareGridSearchCV.selectLeastBiasedModel {E V : Type}
    (self : BiasAwareGridSearchCV E V) : Except PyError (FittedModel E V) :=
  match pyMinBias self.results_ with
  | .error e => .error e
  | .ok best => .ok (self.retrainModel best.params)

/-- `select_balanced_model(threshold)` (lines 95-106): take the top
`threshold` records by descending accuracy, then the least-biased among
them. -/
def BiasAwareGridSearchCV.selectBalancedModel {E V : Type}
    (self : BiasAwareGridSearchCV E V) (threshold : ℕ) :
    Except PyError (FittedModel E V) :=
  match pyMinBias ((pySortAccDesc self.results_).take threshold) with
  | .error e => .error e
  | .ok best => .ok (self.retrainModel best.params)

/-- `find_optimum_model(margin)` (lines 122-123): the body is `pass`, so
the call raises nothing and returns `None`. -/
def BiasAwareGridSearchCV.findOptimumModel {E V : Type}
    (_self : BiasAwareGridSearchCV E V) (_margin : ℚ) :
    Except PyError (Option (FittedModel E V)) :=
  .ok none

/-- `k` successive `fit` calls on the same training data (same folds,
same capability). -/
def fitTimes {E V F ε : Type} (folds : List F)
    (evalFold : List (String × V) → F → Except ε (ℚ × ℚ)) :
    ℕ → BiasAwareGridSearchCV E V → BiasAwareGridSearchCV E V
  | 0, self => self
  | k + 1, self => fitTimes folds evalFold k (self.fit folds evalFold).1

/-! ## Lemmas about the fold loop and the configuration loop -/

theorem foldMetrics_ok_of {F ε : Type} (evalFold : F → Except ε (ℚ × ℚ)) :
    ∀ fs : List F, (∀ f ∈ fs, ∃ ab, evalFold f = .ok ab) →
      ∃ as bs, foldMetrics evalFold fs = .ok (as, bs) ∧
        as.length = fs.length ∧ bs.length = fs.length := by
  intro fs
  induction fs with
  | nil => exact fun _ => ⟨[], [], rfl, rfl, rfl⟩
  | cons f fs ih =>
      intro hok
      obtain ⟨⟨a, b⟩, hab⟩ := hok f (List.mem_cons_self f fs)
      obtain ⟨as, bs, hfs, h1, h2⟩ := ih (fun g hg => hok g (List.mem_cons_of_mem f hg))
      refine ⟨a :: as, b :: bs, ?_, by simp [h1], by simp [h2]⟩
      simp only [foldMetrics, hab, hfs]

theorem foldMetrics_lengths {F ε : Type} (evalFold : F → Except ε (ℚ × ℚ)) :
    ∀ (fs : List F) (as bs : List ℚ), foldMetrics evalFold fs = .ok (as, bs) →
      as.length = fs.length ∧ bs.length = fs.length := by
  intro fs
  induction fs with
  | nil =>
      intro as bs h
      simp only [foldMetrics, Except.ok.injEq, Prod.mk.injEq] at h
      obtain ⟨h1, h2⟩ := h
      simp [← h1, ← h2]
  | cons f fs ih =>
      intro as bs h
      simp only [foldMetrics] at h
      cases hef : evalFold f with
      | error e => rw [hef] at h; simp at h
      | ok ab =>
          obtain ⟨a, b⟩ := ab
          rw [hef] at h
          cases hrest : foldMetrics evalFold fs with
          | error e => rw [hrest] at h; simp at h
          | ok asbs =>
              obtain ⟨as1, bs1⟩ := asbs
              rw [hrest] at h
              simp only [Except.ok.injEq, Prod.mk.injEq] at h
              obtain ⟨h1, h2⟩ := h
              obtain ⟨l1, l2⟩ := ih as1 bs1 hrest
              subst h1 h2
              simp [l1, l2]

theorem evalConfig_ok_of {F ε : Type} (folds : List F)
    (evalFold : F → Except ε (ℚ × ℚ))
    (hok : ∀ f ∈ folds, ∃ ab, evalFold f = .ok ab) :
    ∃ ab, evalConfig folds evalFold = .ok ab := by
  obtain ⟨as, bs, hfm, -, -⟩ := foldMetrics_ok_of evalFold folds hok
  exact ⟨(npMean as, npMean bs), by simp [evalConfig, hfm]⟩

theorem evalConfig_ok_elim {F ε : Type} (folds : List F)
    (evalFold : F → Except ε (ℚ × ℚ)) (a b : ℚ)
    (h : evalConfig folds evalFold = .ok (a, b)) :
    ∃ as bs, foldMetrics evalFold folds = .ok (as, bs) ∧
      as.length = folds.length ∧ bs.length = folds.length ∧
      a = npMean as ∧ b = npMean bs := by
  unfold evalConfig at h
  cases hfm : foldMetrics evalFold folds with
  | error e => rw [hfm] at h; simp at h
  | ok asbs =>
      obtain ⟨as, bs⟩ := asbs
      rw [hfm] at h
      simp only [Except.ok.injEq, Prod.mk.injEq] at h
      obtain ⟨l1, l2⟩ := foldMetrics_lengths evalFold folds as bs hfm
      exact ⟨as, bs, rfl, l1, l2, h.1.symm, h.2.symm⟩

theorem fitLoop_ok {P F ε : Type} (folds : List F)
    (evalFold : P → F → Except ε (ℚ × ℚ)) :
    ∀ ps : List P, (∀ p ∈ ps, ∃ ab, evalConfig folds (evalFold p) = .ok ab) →
      ∀ acc, ∃ new, fitLoop folds evalFold ps acc = (acc ++ new, none) ∧
        new.map Record.params = ps := by
  intro ps
  induction ps with
  | nil => exact fun _ acc => ⟨[], by simp [fitLoop], rfl⟩
  | cons p ps ih =>
      intro hok acc
      obtain ⟨⟨a, b⟩, hab⟩ := hok p (List.mem_cons_self p ps)
      obtain ⟨new, hloop, hmap⟩ :=
        ih (fun q hq => hok q (List.mem_cons_of_mem p hq)) (acc ++ [⟨p, a, b⟩])
      refine ⟨⟨p, a, b⟩ :: new, ?_, by simp [hmap]⟩
      simp only [fitLoop, hab, hloop]
      simp

theorem fitLoop_appends {P F ε : Type} (folds : List F)
    (evalFold : P → F → Except ε (ℚ × ℚ)) :
    ∀ (ps : List P) (acc : List (Record P)),
      ∃ new, (fitLoop folds evalFold ps acc).1 = acc ++ new := by
  intro ps
  induction ps with
  | nil => exact fun acc => ⟨[], by simp [fitLoop]⟩
  | cons p ps ih =>
      intro acc
      cases hev : evalConfig folds (evalFold p) with
      | error e => exact ⟨[], by simp [fitLoop, hev]⟩
      | ok ab =>
          obtain ⟨a, b⟩ := ab
          obtain ⟨new, hnew⟩ := ih (acc ++ [⟨p, a, b⟩])
          refine ⟨⟨p, a, b⟩ :: new, ?_⟩
          simp only [fitLoop, hev, hnew]
          simp

theorem fitLoop_mem {P F ε : Type} (folds : List F)
    (evalFold : P → F → Except ε (ℚ × ℚ)) :
    ∀ (ps : List P) (acc : List (Record P)) (r : Record P),
      r ∈ (fitLoop folds evalFold ps acc).1 →
      r ∈ acc ∨ ∃ p ∈ ps, r.params = p ∧
        evalConfig folds (evalFold p) = .ok (r.accuracy, r.bias) := by
  intro ps
  induction ps with
  | nil => intro acc r hr; left; simpa [fitLoop] using hr
  | cons p ps ih =>
      intro acc r hr
      cases hev : evalConfig folds (evalFold p) with
      | error e =>
          left
          simpa [fitLoop, hev] using hr
      | ok ab =>
          obtain ⟨a, b⟩ := ab
          simp only [fitLoop, hev] at hr
          rcases ih (acc ++ [⟨p, a, b⟩]) r hr with hacc | ⟨q, hq, hpar, hok⟩
          · rcases List.mem_append.1 hacc with h | h
            · exact Or.inl h
            · right
              refine ⟨p, List.mem_cons_self p ps, ?_, ?_⟩
              · simp at h; rw [h]
              · simp at h; rw [h]; exact hev
          · exact Or.inr ⟨q, List.mem_cons_of_mem p hq, hpar, hok⟩

theorem fit_eq {E V F ε : Type} (self : BiasAwareGridSearchCV E V)
    (folds : List F) (evalFold : List (String × V) → F → Except ε (ℚ × ℚ)) :
    self.fit folds evalFold =
      ({ self with
          results_ :=
            (fitLoop folds evalFold (ParameterGrid self.param_grid) self.results_).1 },
        (fitLoop folds evalFold (ParameterGrid self.param_grid) self.results_).2) := by
  unfold BiasAwareGridSearchCV.fit
  rcases fitLoop folds evalFold (ParameterGrid self.param_grid) self.results_ with ⟨res, err⟩
  rfl

theorem listSum_map_const {α : Type} (l : List α) (c : ℕ) :
    (l.map (fun _ => c)).sum = l.length * c := by
  induction l with
  | nil => simp
  | cons a l ih =>
      simp only [List.map_cons, List.sum_cons, List.length_cons, ih]
      ring

theorem gridCartesian_length {V : Type} :
    ∀ grid : List (String × List V),
      (gridCartesian grid).length = (grid.map (fun kv => kv.2.length)).prod := by
  intro grid
  induction grid with
  | nil => simp [gridCartesian]
  | cons kv rest ih =>
      obtain ⟨k, vs⟩ := kv
      simp only [gridCartesian, List.length_flatMap, Function.comp_def,
        List.length_map, List.map_cons, List.prod_cons]
      rw [listSum_map_const, ih]

theorem ParameterGrid_length {V : Type} (grid : List (String × List V)) :
    (ParameterGrid grid).length = (grid.map (fun kv => kv.2.length)).prod := by
  unfold ParameterGrid
  rw [gridCartesian_length]
  exact List.Perm.prod_eq (List.Perm.map _ (List.perm_insertionSort keyLE grid))

theorem fit_param_grid {E V F ε : Type} (self : BiasAwareGridSearchCV E V)
    (folds : List F) (evalFold : List (String × V) → F → Except ε (ℚ × ℚ)) :
    ((self.fit folds evalFold).1).param_grid = self.param_grid := by
  rw [fit_eq]

/-- C1: a single successful `fit` call appends exactly one evaluation
record per configuration of the Cartesian product of the per-parameter
value lists, in the deterministic `ParameterGrid` enumeration order, so
the number of records produced equals the product of the value-list
lengths. -/
theorem C1_fit_one_record_per_configuration {E V F ε : Type}
    (self : BiasAwareGridSearchCV E V) (folds : List F)
    (evalFold : List (String × V) → F → Except ε (ℚ × ℚ))
    (_hne : ParameterGrid self.param_grid ≠ [])
    (hok : ∀ p f, ∃ ab, evalFold p f = .ok ab) :
    ∃ new : List (Record (List (String × V))),
      self.fit folds evalFold =
        ({ self with results_ := self.results_ ++ new }, none) ∧
      new.map Record.params = ParameterGrid self.param_grid ∧
      new.length = (self.param_grid.map (fun kv => kv.2.length)).prod := by
  obtain ⟨new, hloop, hmap⟩ :=
    fitLoop_ok folds evalFold (ParameterGrid self.param_grid)
      (fun p _ => evalConfig_ok_of folds (evalFold p) (fun f _ => hok p f))
      self.results_
  refine ⟨new, ?_, hmap, ?_⟩
  · rw [fit_eq, hloop]
  · have h := congrArg List.length hmap
    rw [List.length_map] at h
    rw [h, ParameterGrid_length]

/-- A concrete 4-row dataset with outcome column `y`, protected attribute
`g` and one feature `x`. -/
def exDF : DF ℕ := ⟨["y", "g", "x"], 4, fun _ _ => 0⟩

/-- A concrete grid-search object: one hyperparameter `C` with two values
and two folds. -/
def exSelf : BiasAwareGridSearchCV Unit ℕ :=
  { estimator := ()
    param_grid := [("C", [1, 2])]
    df := exDF
    outcome_column := "y"
    protected_attribute := "g"
    privileged_value := 1
    unprivileged_value := 0
    cv := 2
    results_ := [] }

/-- Two abstract fold partitions, matching `exSelf.cv = 2`. -/
def exFolds : List Unit := [(), ()]

/-- A deterministic always-succeeding fold-evaluation capability. -/
def exEvalFold : List (String × ℕ) → Unit → Except Unit (ℚ × ℚ) :=
  fun _ _ => .ok (1, 0)

theorem C1_fit_one_record_per_configuration_witness :
    ∃ new : List (Record (List (String × ℕ))),
      exSelf.fit exFolds exEvalFold =
        ({ exSelf with results_ := exSelf.results_ ++ new }, none) ∧
      new.map Record.params = ParameterGrid exSelf.param_grid ∧
      new.length = (exSelf.param_grid.map (fun kv => kv.2.length)).prod :=
  C1_fit_one_record_per_configuration exSelf exFolds exEvalFold
    (by decide) (fun _ _ => ⟨(1, 0), rfl⟩)

/-- C6: every record produced by `fit` carries an `accuracy` that is the
arithmetic mean of exactly `cv` per-fold accuracy measurements and a
`bias` that is the arithmetic mean of exactly `cv` per-fold bias
measurements, where `cv` is the fold count supplied at construction (the
fold splitter yields `self.cv` partitions). -/
theorem C6_record_metrics_are_cv_fold_means {E V F ε : Type}
    (self : BiasAwareGridSearchCV E V) (folds : List F)
    (evalFold : List (String × V) → F → Except ε (ℚ × ℚ))
    (hcv : folds.length = self.cv)
    (r : Record (List (String × V)))
    (hr : r ∈ ((self.fit folds evalFold).1).results_)
    (hnew : r ∉ self.results_) :
    ∃ as bs : List ℚ,
      foldMetrics (evalFold r.params) folds = .ok (as, bs) ∧
      as.length = self.cv ∧ bs.length = self.cv ∧
      r.accuracy = as.sum / (self.cv : ℚ) ∧
      r.bias = bs.sum / (self.cv : ℚ) := by
  rw [fit_eq] at hr
  have hr' : r ∈ (fitLoop folds evalFold (ParameterGrid self.param_grid)
      self.results_).1 := by simpa using hr
  rcases fitLoop_mem folds evalFold (ParameterGrid self.param_grid)
      self.results_ r hr' with h | ⟨p, _, hpar, hok⟩
  · exact absurd h hnew
  · obtain ⟨as, bs, hfm, l1, l2, ha, hb⟩ :=
      evalConfig_ok_elim folds (evalFold p) _ _ hok
    refine ⟨as, bs, by rw [hpar]; exact hfm, by rw [l1, hcv],
      by rw [l2, hcv], ?_, ?_⟩
    · rw [ha]; unfold npMean; rw [l1, hcv]
    · rw [hb]; unfold npMean; rw [l2, hcv]

theorem exFit_results :
    ((exSelf.fit exFolds exEvalFold).1).results_ =
      [⟨[("C", 1)], 1, 0⟩, ⟨[("C", 2)], 1, 0⟩] := by
  rw [fit_eq]
  show (fitLoop exFolds exEvalFold (ParameterGrid exSelf.param_grid)
      exSelf.results_).1 = _
  norm_num [exSelf, exFolds, exEvalFold, ParameterGrid, gridCartesian,
    List.insertionSort, List.orderedInsert, fitLoop, evalConfig, foldMetrics,
    npMean]

theorem C6_record_metrics_are_cv_fold_means_witness :
    ∃ as bs : List ℚ,
      foldMetrics (exEvalFold [("C", 1)]) exFolds = .ok (as, bs) ∧
      as.length = exSelf.cv ∧ bs.length = exSelf.cv ∧
      (1 : ℚ) = as.sum / (exSelf.cv : ℚ) ∧
      (0 : ℚ) = bs.sum / (exSelf.cv : ℚ) :=
  C6_record_metrics_are_cv_fold_means exSelf exFolds exEvalFold rfl
    ⟨[("C", 1)], 1, 0⟩ (by rw [exFit_results]; simp) (by simp [exSelf])

theorem fitTimes_results_length {E V F ε : Type} (folds : List F)
    (evalFold : List (String × V) → F → Except ε (ℚ × ℚ))
    (hok : ∀ p f, ∃ ab, evalFold p f = .ok ab) :
    ∀ (k : ℕ) (self : BiasAwareGridSearchCV E V),
      (fitTimes folds evalFold k self).results_.length =
        self.results_.length + k * (ParameterGrid self.param_grid).length := by
  intro k
  induction k with
  | zero => intro self; simp [fitTimes]
  | succ k ih =>
      intro self
      obtain ⟨new, hloop, hmap⟩ :=
        fitLoop_ok folds evalFold (ParameterGrid self.param_grid)
          (fun p _ => evalConfig_ok_of folds (evalFold p) (fun f _ => hok p f))
          self.results_
      have hres : ((self.fit folds evalFold).1).results_ = self.results_ ++ new := by
        rw [fit_eq, hloop]
      have hlen : new.length = (ParameterGrid self.param_grid).length := by
        rw [← hmap, List.length_map]
      have step : fitTimes folds evalFold (k + 1) self =
          fitTimes folds evalFold k (self.fit folds evalFold).1 := rfl
      rw [step, ih, hres, fit_param_grid, List.length_append, hlen]
      ring

/-- C10: `fit` never clears the stored result collection before
appending, so `k` successful `fit` calls over the same grid of size `g`
leave `k * g` records in the collection the selection methods consume. -/
theorem C10_fit_accumulates_across_calls {E V F ε : Type}
    (self : BiasAwareGridSearchCV E V) (folds : List F)
    (evalFold : List (String × V) → F → Except ε (ℚ × ℚ)) (k : ℕ)
    (hok : ∀ p f, ∃ ab, evalFold p f = .ok ab)
    (hinit : self.results_ = []) :
    (∃ new, ((self.fit folds evalFold).1).results_ = self.results_ ++ new) ∧
    (fitTimes folds evalFold k self).results_.length =
      k * (ParameterGrid self.param_grid).length := by
  constructor
  · obtain ⟨new, hnew⟩ :=
      fitLoop_appends folds evalFold (ParameterGrid self.param_grid) self.results_
    refine ⟨new, ?_⟩
    rw [fit_eq]
    exact hnew
  · rw [fitTimes_results_length folds evalFold hok k self, hinit]
    simp

theorem C10_fit_accumulates_across_calls_witness :
    (∃ new, ((exSelf.fit exFolds exEvalFold).1).results_ =
      exSelf.results_ ++ new) ∧
    (fitTimes exFolds exEvalFold 2 exSelf).results_.length =
      2 * (ParameterGrid exSelf.param_grid).length :=
  C10_fit_accumulates_across_calls exSelf exFolds exEvalFold 2
    (fun _ _ => ⟨(1, 0), rfl⟩) rfl

/-! ## Lemmas about the Python `max`/`min` accumulators -/

theorem pyMaxAccAux_spec {P : Type} :
    ∀ (rs : List (Record P)) (best : Record P),
      (∀ y ∈ rs, y.accuracy ≤ (pyMaxAccAux best rs).accuracy) ∧
      best.accuracy ≤ (pyMaxAccAux best rs).accuracy ∧
      (pyMaxAccAux best rs = best ∨
        ∃ pre post, rs = pre ++ pyMaxAccAux best rs :: post ∧
          best.accuracy < (pyMaxAccAux best rs).accuracy ∧
          ∀ y ∈ pre, y.accuracy < (pyMaxAccAux best rs).accuracy) := by
  intro rs
  induction rs with
  | nil => exact fun best => ⟨by simp, le_refl _, Or.inl rfl⟩
  | cons r rs ih =>
      intro best
      by_cases h : best.accuracy < r.accuracy
      · have hd : pyMaxAccAux best (r :: rs) = pyMaxAccAux r rs := by
          rw [pyMaxAccAux, if_pos h]
        obtain ⟨hall, hbest, hcase⟩ := ih r
        rw [hd]
        refine ⟨?_, le_of_lt (lt_of_lt_of_le h hbest), ?_⟩
        · intro y hy
          rcases List.mem_cons.1 hy with rfl | hy
          · exact hbest
          · exact hall y hy
        · right
          rcases hcase with heq | ⟨pre, post, hsplit, hlt, hpre⟩
          · exact ⟨[], rs, by rw [heq]; rfl, by rw [heq]; exact h, by simp⟩
          · refine ⟨r :: pre, post, by simp [← hsplit], lt_trans h hlt, ?_⟩
            intro y hy
            rcases List.mem_cons.1 hy with rfl | hy
            · exact hlt
            · exact hpre y hy
      · have hd : pyMaxAccAux best (r :: rs) = pyMaxAccAux best rs := by
          rw [pyMaxAccAux, if_neg h]
        obtain ⟨hall, hbest, hcase⟩ := ih best
        rw [hd]
        refine ⟨?_, hbest, ?_⟩
        · intro y hy
          rcases List.mem_cons.1 hy with rfl | hy
          · exact le_trans (not_lt.1 h) hbest
          · exact hall y hy
        · rcases hcase with heq | ⟨pre, post, hsplit, hlt, hpre⟩
          · exact Or.inl heq
          · right
            refine ⟨r :: pre, post, by simp [← hsplit], hlt, ?_⟩
            intro y hy
            rcases List.mem_cons.1 hy with rfl | hy
            · exact lt_of_le_of_lt (not_lt.1 h) hlt
            · exact hpre y hy

theorem pyMinBiasAux_spec {P : Type} :
    ∀ (rs : List (Record P)) (best : Record P),
      (pyMinBiasAux best rs = best ∨ pyMinBiasAux best rs ∈ rs) ∧
      (pyMinBiasAux best rs).bias ≤ best.bias ∧
      ∀ y ∈ rs, (pyMinBiasAux best rs).bias ≤ y.bias := by
  intro rs
  induction rs with
  | nil => exact fun best => ⟨Or.inl rfl, le_refl _, by simp⟩
  | cons r rs ih =>
      intro best
      by_cases h : r.bias < best.bias
      · have hd : pyMinBiasAux best (r :: rs) = pyMinBiasAux r rs := by
          rw [pyMinBiasAux, if_pos h]
        obtain ⟨hmem, hle, hall⟩ := ih r
        rw [hd]
        refine ⟨?_, le_trans hle (le_of_lt h), ?_⟩
        · right
          rcases hmem with heq | hmem
          · rw [heq]; exact List.mem_cons_self r rs
          · exact List.mem_cons_of_mem r hmem
        · intro y hy
          rcases List.mem_cons.1 hy with rfl | hy
          · exact hle
          · exact hall y hy
      · have hd : pyMinBiasAux best (r :: rs) = pyMinBiasAux best rs := by
          rw [pyMinBiasAux, if_neg h]
        obtain ⟨hmem, hle, hall⟩ := ih best
        rw [hd]
        refine ⟨?_, hle, ?_⟩
        · rcases hmem with heq | hmem
          · exact Or.inl heq
          · exact Or.inr (List.mem_cons_of_mem r hmem)
        · intro y hy
          rcases List.mem_cons.1 hy with rfl | hy
          · exact le_trans hle (not_lt.1 h)
          · exact hall y hy

theorem pyMaxAcc_ok {P : Type} (l : List (Record P)) (m : Record P)
    (h : pyMaxAcc l = .ok m) :
    m ∈ l ∧ ∀ y ∈ l, y.accuracy ≤ m.accuracy := by
  cases l with
  | nil => simp [pyMaxAcc] at h
  | cons r rs =>
      have hm : m = pyMaxAccAux r rs := by
        simpa [pyMaxAcc] using h.symm
      obtain ⟨hall, hbest, hcase⟩ := pyMaxAccAux_spec rs r
      rw [← hm] at hall hbest hcase
      constructor
      · rcases hcase with heq | ⟨pre, post, hsplit, -, -⟩
        · rw [heq]; exact List.mem_cons_self r rs
        · refine List.mem_cons_of_mem r ?_
          rw [hsplit]
          exact List.mem_append_right pre (List.mem_cons_self _ post)
      · intro y hy
        rcases List.mem_cons.1 hy with rfl | hy
        · exact hbest
        · exact hall y hy

theorem pyMinBias_ok {P : Type} (l : List (Record P)) (m : Record P)
    (h : pyMinBias l = .ok m) :
    m ∈ l ∧ ∀ y ∈ l, m.bias ≤ y.bias := by
  cases l with
  | nil => simp [pyMinBias] at h
  | cons r rs =>
      have hm : m = pyMinBiasAux r rs := by
        simpa [pyMinBias] using h.symm
      obtain ⟨hmem, hle, hall⟩ := pyMinBiasAux_spec rs r
      subst hm
      constructor
      · rcases hmem with heq | hmem
        · rw [heq]; exact List.mem_cons_self r rs
        · exact List.mem_cons_of_mem r hmem
      · intro y hy
        rcases List.mem_cons.1 hy with rfl | hy
        · exact hle
        · exact hall y hy

theorem pyMinBias_ok_of_ne_nil {P : Type} (l : List (Record P)) (hne : l ≠ []) :
    ∃ m, pyMinBias l = .ok m := by
  obtain ⟨r, rs, rfl⟩ := List.exists_cons_of_ne_nil hne
  exact ⟨pyMinBiasAux r rs, rfl⟩

theorem pySortAccDesc_ne_nil {P : Type} (l : List (Record P)) (hne : l ≠ []) :
    pySortAccDesc l ≠ [] := by
  intro h
  apply hne
  have hperm := List.perm_insertionSort accDesc l
  rw [show l.insertionSort accDesc = pySortAccDesc l from rfl, h] at hperm
  exact (List.Perm.symm hperm).eq_nil

/-- A grid-search object with two stored evaluation records of distinct
accuracies (3 and 5) and biases (2 and 1). -/
def exSelfR : BiasAwareGridSearchCV Unit ℕ :=
  { exSelf with results_ := [⟨[("C", 1)], 3, 2⟩, ⟨[("C", 2)], 5, 1⟩] }

/-- A grid-search object with exactly two stored records whose biases are
0.05 and 0.2, as in the spec's worked example. -/
def exBias : BiasAwareGridSearchCV Unit ℕ :=
  { exSelf with results_ := [⟨[("C", 1)], 3, 1/20⟩, ⟨[("C", 2)], 5, 1/5⟩] }

/-- C4: `select_highest_accuracy_model` on a non-empty result list
selects the configuration of a record with maximum `mean_accuracy`, and
on ties deterministically the first such record in enumeration order
(every record before the selected one has strictly smaller accuracy). -/
theorem C4_highest_accuracy_selects_first_max {E V : Type}
    (self : BiasAwareGridSearchCV E V) (hne : self.results_ ≠ []) :
    ∃ m pre post,
      self.results_ = pre ++ m :: post ∧
      (∀ y ∈ self.results_, y.accuracy ≤ m.accuracy) ∧
      (∀ y ∈ pre, y.accuracy < m.accuracy) ∧
      self.selectHighestAccuracyModel = .ok (self.retrainModel m.params) := by
  obtain ⟨r, rs, hcons⟩ := List.exists_cons_of_ne_nil hne
  obtain ⟨hall, hbest, hcase⟩ := pyMaxAccAux_spec rs r
  have hsel : self.selectHighestAccuracyModel =
      .ok (self.retrainModel (pyMaxAccAux r rs).params) := by
    unfold BiasAwareGridSearchCV.selectHighestAccuracyModel
    rw [hcons]
    rfl
  set M := pyMaxAccAux r rs with hM
  rcases hcase with heq | ⟨pre, post, hsplit, hlt, hpre⟩
  · refine ⟨M, [], rs, ?_, ?_, by simp, hsel⟩
    · rw [heq, hcons]; rfl
    · intro y hy
      rw [hcons] at hy
      rcases List.mem_cons.1 hy with rfl | hy
      · exact hbest
      · exact hall y hy
  · refine ⟨M, r :: pre, post, ?_, ?_, ?_, hsel⟩
    · rw [hcons, hsplit]; rfl
    · intro y hy
      rw [hcons] at hy
      rcases List.mem_cons.1 hy with rfl | hy
      · exact le_of_lt hlt
      · exact hall y hy
    · intro y hy
      rcases List.mem_cons.1 hy with rfl | hy
      · exact hlt
      · exact hpre y hy

theorem C4_highest_accuracy_selects_first_max_witness :
    ∃ m pre post,
      exSelfR.results_ = pre ++ m :: post ∧
      (∀ y ∈ exSelfR.results_, y.accuracy ≤ m.accuracy) ∧
      (∀ y ∈ pre, y.accuracy < m.accuracy) ∧
      exSelfR.selectHighestAccuracyModel = .ok (exSelfR.retrainModel m.params) :=
  C4_highest_accuracy_selects_first_max exSelfR (by decide)

/-- C5: `select_least_biased_model` on a non-empty result list selects
the configuration of a record with minimum `mean_bias`; in particular, on
exactly two records with biases 0.05 and 0.2 it selects the configuration
of the record with bias 0.05. -/
theorem C5_least_bias_selects_min :
    (∀ (E V : Type) (self : BiasAwareGridSearchCV E V), self.results_ ≠ [] →
      ∃ m, m ∈ self.results_ ∧ (∀ y ∈ self.results_, m.bias ≤ y.bias) ∧
        self.selectLeastBiasedModel = .ok (self.retrainModel m.params)) ∧
    exBias.selectLeastBiasedModel = .ok (exBias.retrainModel [("C", 1)]) := by
  constructor
  · intro E V self hne
    obtain ⟨r, rs, hcons⟩ := List.exists_cons_of_ne_nil hne
    have hok : pyMinBias self.results_ = .ok (pyMinBiasAux r rs) := by
      rw [hcons]; rfl
    obtain ⟨hmem, hmin⟩ := pyMinBias_ok self.results_ _ hok
    refine ⟨pyMinBiasAux r rs, hmem, hmin, ?_⟩
    unfold BiasAwareGridSearchCV.selectLeastBiasedModel
    rw [hok]
  · have hres : exBias.results_ =
        [⟨[("C", 1)], 3, 1/20⟩, ⟨[("C", 2)], 5, 1/5⟩] := rfl
    unfold BiasAwareGridSearchCV.selectLeastBiasedModel
    rw [hres]
    norm_num [pyMinBias, pyMinBiasAux]

theorem C5_least_bias_selects_min_witness :
    ∃ m, m ∈ exSelfR.results_ ∧ (∀ y ∈ exSelfR.results_, m.bias ≤ y.bias) ∧
      exSelfR.selectLeastBiasedModel = .ok (exSelfR.retrainModel m.params) :=
  C5_least_bias_selects_min.1 Unit ℕ exSelfR (by decide)

/-- The property C7 asserts of a returned model: it is a fresh clone of
the stored base estimator, fitted on the entire stored dataset — every
row, outcome column dropped from the features and used as the target —
with a configuration selected from the stored records. -/
def retrainedOnFullDataset {E V : Type} (self : BiasAwareGridSearchCV E V)
    (m : FittedModel E V) : Prop :=
  m.base = self.estimator ∧
  m.trainFeatures = self.df.dropColumns [self.outcome_column] ∧
  m.trainTarget = self.df.col self.outcome_column ∧
  m.trainFeatures.nrows = self.df.nrows ∧
  ∃ r ∈ self.results_, m.params = r.params

theorem retrainModel_full {E V : Type} (self : BiasAwareGridSearchCV E V)
    (r : Record (List (String × V))) (hr : r ∈ self.results_) :
    retrainedOnFullDataset self (self.retrainModel r.params) :=
  ⟨rfl, rfl, rfl, rfl, r, hr, rfl⟩

/-- C7: every selection policy that returns a model has retrained a fresh
clone of the base estimator, configured with the selected configuration,
on the entire stored dataset (all rows, outcome column dropped from the
features and used as the target), not on the training-only split. -/
theorem C7_every_policy_retrains_on_full_dataset {E V : Type}
    (self : BiasAwareGridSearchCV E V) (m : FittedModel E V) :
    (self.selectHighestAccuracyModel = .ok m → retrainedOnFullDataset self m) ∧
    (self.selectLeastBiasedModel = .ok m → retrainedOnFullDataset self m) ∧
    (∀ t, self.selectBalancedModel t = .ok m → retrainedOnFullDataset self m) := by
  refine ⟨?_, ?_, ?_⟩
  · intro h
    unfold BiasAwareGridSearchCV.selectHighestAccuracyModel at h
    cases hp : pyMaxAcc self.results_ with
    | error e => rw [hp] at h; simp at h
    | ok best =>
        rw [hp] at h
        simp only [Except.ok.injEq] at h
        obtain ⟨hmem, -⟩ := pyMaxAcc_ok self.results_ best hp
        rw [← h]
        exact retrainModel_full self best hmem
  · intro h
    unfold BiasAwareGridSearchCV.selectLeastBiasedModel at h
    cases hp : pyMinBias self.results_ with
    | error e => rw [hp] at h; simp at h
    | ok best =>
        rw [hp] at h
        simp only [Except.ok.injEq] at h
        obtain ⟨hmem, -⟩ := pyMinBias_ok self.results_ best hp
        rw [← h]
        exact retrainModel_full self best hmem
  · intro t h
    unfold BiasAwareGridSearchCV.selectBalancedModel at h
    cases hp : pyMinBias ((pySortAccDesc self.results_).take t) with
    | error e => rw [hp] at h; simp at h
    | ok best =>
        rw [hp] at h
        simp only [Except.ok.injEq] at h
        obtain ⟨hmem, -⟩ := pyMinBias_ok _ best hp
        have hmem' : best ∈ self.results_ :=
          (List.mem_insertionSort accDesc).1 (List.take_subset t _ hmem)
        rw [← h]
        exact retrainModel_full self best hmem'

theorem C7_every_policy_retrains_on_full_dataset_witness :
    retrainedOnFullDataset exSelfR (exSelfR.retrainModel [("C", 2)]) := by
  have hmax : pyMaxAcc exSelfR.results_ = .ok ⟨[("C", 2)], 5, 1⟩ := by
    norm_num [exSelfR, exSelf, pyMaxAcc, pyMaxAccAux]
  exact (C7_every_policy_retrains_on_full_dataset exSelfR
      (exSelfR.retrainModel [("C", 2)])).1
    (by unfold BiasAwareGridSearchCV.selectHighestAccuracyModel; rw [hmax])

/-- C9 counterexample: calling `find_optimum_model(0)` raises nothing —
in particular not `NotImplementedError` — and silently returns `None`,
refuting the claim that the method explicitly signals "not implemented". -/
theorem C9_counterexample_returns_none_silently :
    exSelf.findOptimumModel 0 = .ok none ∧
    (Except.ok none : Except PyError (Option (FittedModel Unit ℕ))) ≠
      .error PyError.notImplementedError :=
  ⟨rfl, fun h => Except.noConfusion h⟩

/-- C9 (amended): for every margin, `find_optimum_model(margin)` raises
no error and silently returns `None` (its body is `pass`), rather than
signalling `NotImplementedError`. -/
theorem C9_find_optimum_returns_none {E V : Type}
    (self : BiasAwareGridSearchCV E V) (margin : ℚ) :
    self.findOptimumModel margin = .ok none :=
  rfl

theorem selectBalancedModel_ok_of_ne_nil {E V : Type}
    (self : BiasAwareGridSearchCV E V) (t : ℕ) (hne : self.results_ ≠ [])
    (ht : t ≠ 0) : ∃ m, self.selectBalancedModel t = .ok m := by
  have hs := pySortAccDesc_ne_nil self.results_ hne
  obtain ⟨x, xs, hx⟩ := List.exists_cons_of_ne_nil hs
  obtain ⟨k, rfl⟩ := Nat.exists_eq_succ_of_ne_zero ht
  unfold BiasAwareGridSearchCV.selectBalancedModel
  rw [hx, List.take_succ_cons]
  exact ⟨_, rfl⟩

/-- C3 (amended): `select_balanced_model(0)` fails — but with Python's
`ValueError` raised by `min()` on the empty sequence, not an
`InvalidThresholdError`, which the code never defines — and no retraining
is attempted; and for `threshold > n` the call does not fail at all: it
behaves exactly like `threshold = n`. -/
theorem C3_threshold_zero_fails_large_threshold_clamps {E V : Type}
    (self : BiasAwareGridSearchCV E V) :
    self.selectBalancedModel 0 = .error PyError.valueError ∧
    ∀ t, self.results_.length ≤ t →
      self.selectBalancedModel t = self.selectBalancedModel self.results_.length := by
  constructor
  · rfl
  · intro t ht
    unfold BiasAwareGridSearchCV.selectBalancedModel
    have hlen : (pySortAccDesc self.results_).length = self.results_.length :=
      (List.perm_insertionSort accDesc self.results_).length_eq
    rw [List.take_of_length_le (le_of_eq_of_le hlen ht),
      List.take_of_length_le (le_of_eq hlen)]

theorem C3_threshold_zero_fails_large_threshold_clamps_witness :
    exSelfR.selectBalancedModel 0 = .error PyError.valueError ∧
    exSelfR.selectBalancedModel 5 =
      exSelfR.selectBalancedModel exSelfR.results_.length :=
  ⟨(C3_threshold_zero_fails_large_threshold_clamps exSelfR).1,
    (C3_threshold_zero_fails_large_threshold_clamps exSelfR).2 5 (by decide)⟩

/-- C3 counterexample: with two stored records, `select_balanced_model(3)`
(threshold 3 > n = 2) succeeds instead of failing with
`InvalidThresholdError` as the claim requires. -/
theorem C3_counterexample_large_threshold_succeeds :
    ∃ m, exSelfR.selectBalancedModel 3 = .ok m :=
  selectBalancedModel_ok_of_ne_nil exSelfR 3 (by decide) (by decide)

theorem fitLoop_err {P F ε : Type} (folds : List F)
    (evalFold : P → F → Except ε (ℚ × ℚ)) :
    ∀ ps : List P, (∀ q ∈ ps, ∃ ab, evalConfig folds (evalFold q) = .ok ab) →
      ∀ (qs : List P) (p : P) (e : ε) (acc : List (Record P)),
        evalConfig folds (evalFold p) = .error e →
        ∃ new, fitLoop folds evalFold (ps ++ p :: qs) acc = (acc ++ new, some e) ∧
          new.map Record.params = ps := by
  intro ps
  induction ps with
  | nil =>
      intro _ qs p e acc hp
      refine ⟨[], ?_, rfl⟩
      simp only [List.nil_append, fitLoop, hp]
      simp
  | cons q ps ih =>
      intro hok qs p e acc hp
      obtain ⟨⟨a, b⟩, hab⟩ := hok q (List.mem_cons_self q ps)
      obtain ⟨new, hloop, hmap⟩ :=
        ih (fun x hx => hok x (List.mem_cons_of_mem q hx)) qs p e
          (acc ++ [⟨q, a, b⟩]) hp
      refine ⟨⟨q, a, b⟩ :: new, ?_, by simp [hmap]⟩
      rw [List.cons_append]
      simp only [fitLoop, hab, hloop]
      simp

/-- C8 (amended): when a capability call fails during the evaluation of
some configuration, `fit` fails fast — the error surfaces and no record
is appended for the failing configuration or any later one — but the
records of the configurations evaluated before the failure remain
appended to the persistent `results_` collection that the selection
methods consume, so that state is exposed to the caller. -/
theorem C8_fail_fast_but_earlier_records_kept {E V F ε : Type}
    (self : BiasAwareGridSearchCV E V) (folds : List F)
    (evalFold : List (String × V) → F → Except ε (ℚ × ℚ))
    (ps qs : List (List (String × V))) (p : List (String × V)) (e : ε)
    (hgrid : ParameterGrid self.param_grid = ps ++ p :: qs)
    (hok : ∀ q ∈ ps, ∃ ab, evalConfig folds (evalFold q) = .ok ab)
    (hp : evalConfig folds (evalFold p) = .error e) :
    ∃ new, self.fit folds evalFold =
        ({ self with results_ := self.results_ ++ new }, some e) ∧
      new.map Record.params = ps := by
  obtain ⟨new, hloop, hmap⟩ :=
    fitLoop_err folds evalFold ps hok qs p e self.results_ hp
  refine ⟨new, ?_, hmap⟩
  rw [fit_eq, hgrid, hloop]

/-- A capability that fails on configuration `C = 2` and succeeds with
deterministic metrics elsewhere. -/
def exEvalFoldFail : List (String × ℕ) → Unit → Except Unit (ℚ × ℚ) :=
  fun p _ => if p = [("C", 2)] then .error () else .ok (1, 0)

theorem C8_fail_fast_but_earlier_records_kept_witness :
    ∃ new, exSelf.fit exFolds exEvalFoldFail =
        ({ exSelf with results_ := exSelf.results_ ++ new }, some ()) ∧
      new.map Record.params = [[("C", 1)]] :=
  C8_fail_fast_but_earlier_records_kept exSelf exFolds exEvalFoldFail
    [[("C", 1)]] [] [("C", 2)] () rfl
    (by
      intro q hq
      simp only [List.mem_singleton] at hq
      subst hq
      exact ⟨(npMean [1, 1], npMean [0, 0]), rfl⟩)
    rfl

/-- C8 counterexample: with grid `C` in `[1, 2]` and the capability
failing on `C = 2`, the failed `fit` call leaves the record for `C = 1`
in `results_`, and `select_highest_accuracy_model` then consumes it —
records from configurations evaluated before the failure are exposed as
results to the caller, refuting the claim's "no partial result state"
part. -/
theorem C8_counterexample_earlier_records_exposed :
    ((exSelf.fit exFolds exEvalFoldFail).1).results_ = [⟨[("C", 1)], 1, 0⟩] ∧
    (exSelf.fit exFolds exEvalFoldFail).2 = some () ∧
    ∃ m, ((exSelf.fit exFolds exEvalFoldFail).1).selectHighestAccuracyModel =
      .ok m := by
  have hfl : fitLoop exFolds exEvalFoldFail (ParameterGrid exSelf.param_grid)
      exSelf.results_ = ([⟨[("C", 1)], 1, 0⟩], some ()) := by
    norm_num [exSelf, exFolds, exEvalFoldFail, ParameterGrid, gridCartesian,
      List.insertionSort, List.orderedInsert, fitLoop, evalConfig, foldMetrics,
      npMean]
  have hres : ((exSelf.fit exFolds exEvalFoldFail).1).results_ =
      [⟨[("C", 1)], 1, 0⟩] := by
    rw [fit_eq, hfl]
  refine ⟨hres, ?_, ?_⟩
  · rw [fit_eq, hfl]
  · refine ⟨((exSelf.fit exFolds exEvalFoldFail).1).retrainModel [("C", 1)], ?_⟩
    unfold BiasAwareGridSearchCV.selectHighestAccuracyModel
    rw [hres]
    rfl

/-! ## The head of the stable descending sort is Python's `max` -/

theorem oi_oi_head {P : Type} (s : List (Record P)) (x y : Record P) :
    (List.orderedInsert accDesc x (List.orderedInsert accDesc y s)).head? =
      (List.orderedInsert accDesc
        (if x.accuracy < y.accuracy then y else x) s).head? := by
  cases s with
  | nil =>
      by_cases h : x.accuracy < y.accuracy
      · have hxy : ¬ accDesc x y := not_le.mpr h
        have e1 : List.orderedInsert accDesc y ([] : List (Record P)) = [y] := rfl
        have e2 : List.orderedInsert accDesc x [y] =
            if accDesc x y then x :: [y] else y :: List.orderedInsert accDesc x [] := rfl
        rw [if_pos h, e1, e2, if_neg hxy]
        rfl
      · have hxy : accDesc x y := not_lt.mp h
        have e1 : List.orderedInsert accDesc y ([] : List (Record P)) = [y] := rfl
        have e2 : List.orderedInsert accDesc x [y] =
            if accDesc x y then x :: [y] else y :: List.orderedInsert accDesc x [] := rfl
        rw [if_neg h, e1, e2, if_pos hxy]
        rfl
  | cons z zs =>
      have e1 : List.orderedInsert accDesc y (z :: zs) =
          if accDesc y z then y :: z :: zs
          else z :: List.orderedInsert accDesc y zs := rfl
      by_cases hyz : accDesc y z
      · rw [e1, if_pos hyz]
        have e2 : List.orderedInsert accDesc x (y :: z :: zs) =
            if accDesc x y then x :: y :: z :: zs
            else y :: List.orderedInsert accDesc x (z :: zs) := rfl
        rw [e2]
        by_cases hxy : accDesc x y
        · rw [if_pos hxy, if_neg (not_lt.mpr hxy)]
          have e3 : List.orderedInsert accDesc x (z :: zs) =
              if accDesc x z then x :: z :: zs
              else z :: List.orderedInsert accDesc x zs := rfl
          have hxz : accDesc x z := le_trans hyz hxy
          rw [e3, if_pos hxz]
          rfl
        · rw [if_neg hxy, if_pos (not_le.mp hxy), e1, if_pos hyz]
          rfl
      · rw [e1, if_neg hyz]
        have e4 : List.orderedInsert accDesc x
              (z :: List.orderedInsert accDesc y zs) =
            if accDesc x z then x :: z :: List.orderedInsert accDesc y zs
            else z :: List.orderedInsert accDesc x
              (List.orderedInsert accDesc y zs) := rfl
        rw [e4]
        by_cases hxz : accDesc x z
        · have hw : (if x.accuracy < y.accuracy then y else x) = x := by
            apply if_neg
            intro hlt
            exact absurd hxz (not_le.mpr (lt_trans hlt (not_le.mp hyz)))
          rw [if_pos hxz, hw]
          have e5 : List.orderedInsert accDesc x (z :: zs) =
              if accDesc x z then x :: z :: zs
              else z :: List.orderedInsert accDesc x zs := rfl
          rw [e5, if_pos hxz]
          rfl
        · rw [if_neg hxz]
          by_cases hlt : x.accuracy < y.accuracy
          · rw [if_pos hlt, e1, if_neg hyz]
            rfl
          · rw [if_neg hlt]
            have e6 : List.orderedInsert accDesc x (z :: zs) =
                if accDesc x z then x :: z :: zs
                else z :: List.orderedInsert accDesc x zs := rfl
            rw [e6, if_neg hxz]
            rfl

theorem oi_sort_head {P : Type} :
    ∀ (xs : List (Record P)) (x : Record P),
      (List.orderedInsert accDesc x (xs.insertionSort accDesc)).head? =
        some (pyMaxAccAux x xs) := by
  intro xs
  induction xs with
  | nil => intro x; rfl
  | cons y ys ih =>
      intro x
      have hs : (y :: ys).insertionSort accDesc =
          List.orderedInsert accDesc y (ys.insertionSort accDesc) := rfl
      rw [hs, oi_oi_head, ih]
      rfl

theorem sort_head_pyMax {P : Type} (r : Record P) (rs : List (Record P)) :
    (pySortAccDesc (r :: rs)).head? = some (pyMaxAccAux r rs) :=
  oi_sort_head rs r

theorem mem_pySortAccDesc {P : Type} {l : List (Record P)} {x : Record P} :
    x ∈ pySortAccDesc l ↔ x ∈ l :=
  List.mem_insertionSort accDesc

/-- C2 (amended): `select_balanced_model(1)` always selects exactly as
`select_highest_accuracy_model` (the stable descending sort puts the
first maximal-accuracy record at the head); `select_balanced_model(n)`
with `n` the total record count selects as `select_least_biased_model`
provided the records' `mean_bias` values are pairwise distinct — with a
bias tie the sort can reorder the tied records, so the two methods may
pick different configurations. -/
theorem C2_balanced_threshold_extremes {E V : Type}
    (self : BiasAwareGridSearchCV E V) (hne : self.results_ ≠ []) :
    self.selectBalancedModel 1 = self.selectHighestAccuracyModel ∧
    ((∀ a ∈ self.results_, ∀ b ∈ self.results_, a.bias = b.bias → a = b) →
      self.selectBalancedModel self.results_.length =
        self.selectLeastBiasedModel) := by
  constructor
  · obtain ⟨r, rs, hcons⟩ := List.exists_cons_of_ne_nil hne
    have hhead : (pySortAccDesc self.results_).head? = some (pyMaxAccAux r rs) := by
      rw [hcons]
      exact sort_head_pyMax r rs
    cases hs : pySortAccDesc self.results_ with
    | nil => rw [hs] at hhead; simp at hhead
    | cons m t =>
        rw [hs] at hhead
        simp only [List.head?_cons, Option.some.injEq] at hhead
        unfold BiasAwareGridSearchCV.selectBalancedModel
          BiasAwareGridSearchCV.selectHighestAccuracyModel
        rw [hs, hcons]
        have ht1 : (m :: t).take 1 = [m] := rfl
        rw [ht1, hhead]
        rfl
  · intro hinj
    obtain ⟨m1, hm1⟩ := pyMinBias_ok_of_ne_nil (pySortAccDesc self.results_)
      (pySortAccDesc_ne_nil self.results_ hne)
    obtain ⟨m2, hm2⟩ := pyMinBias_ok_of_ne_nil self.results_ hne
    obtain ⟨hm1mem, hm1min⟩ := pyMinBias_ok _ _ hm1
    obtain ⟨hm2mem, hm2min⟩ := pyMinBias_ok _ _ hm2
    have hm1mem' : m1 ∈ self.results_ := mem_pySortAccDesc.1 hm1mem
    have heq : m1 = m2 := by
      apply hinj m1 hm1mem' m2 hm2mem
      apply le_antisymm
      · exact hm1min m2 (mem_pySortAccDesc.2 hm2mem)
      · exact hm2min m1 hm1mem'
    unfold BiasAwareGridSearchCV.selectBalancedModel
      BiasAwareGridSearchCV.selectLeastBiasedModel
    have hlen : (pySortAccDesc self.results_).length = self.results_.length :=
      (List.perm_insertionSort accDesc self.results_).length_eq
    rw [List.take_of_length_le (le_of_eq hlen), hm1, hm2, heq]

theorem C2_balanced_threshold_extremes_witness :
    exSelfR.selectBalancedModel 1 = exSelfR.selectHighestAccuracyModel ∧
    exSelfR.selectBalancedModel exSelfR.results_.length =
      exSelfR.selectLeastBiasedModel :=
  ⟨(C2_balanced_threshold_extremes exSelfR (by decide)).1,
    (C2_balanced_threshold_extremes exSelfR (by decide)).2 (by decide)⟩

/-- A grid-search object whose two records tie on bias (both 1) but
differ in accuracy (3 versus 5). -/
def exTie : BiasAwareGridSearchCV Unit ℕ :=
  { exSelf with results_ := [⟨[("C", 1)], 3, 1⟩, ⟨[("C", 2)], 5, 1⟩] }

/-- C2 counterexample: with two records tying on bias,
`select_balanced_model(n)` (here `n = 2`) retrains with the configuration
`C = 2` of the higher-accuracy record (the sort reordered the tie) while
`select_least_biased_model` retrains with `C = 1` (the first record in
enumeration order) — the claim's `threshold = n` half fails. -/
theorem C2_counterexample_bias_tie :
    exTie.results_.length = 2 ∧
    exTie.selectBalancedModel 2 = .ok (exTie.retrainModel [("C", 2)]) ∧
    exTie.selectLeastBiasedModel = .ok (exTie.retrainModel [("C", 1)]) ∧
    ([("C", 2)] : List (String × ℕ)) ≠ [("C", 1)] := by
  have hsort : pySortAccDesc exTie.results_ =
      [⟨[("C", 2)], 5, 1⟩, ⟨[("C", 1)], 3, 1⟩] := by
    norm_num [pySortAccDesc, List.insertionSort, List.orderedInsert, accDesc,
      exTie, exSelf]
  refine ⟨rfl, ?_, ?_, by decide⟩
  · unfold BiasAwareGridSearchCV.selectBalancedModel
    rw [List.take_of_length_le (by rw [hsort]; norm_num), hsort]
    norm_num [pyMinBias, pyMinBiasAux]
  · unfold BiasAwareGridSearchCV.selectLeastBiasedModel
    norm_num [exTie, exSelf, pyMinBias, pyMinBiasAux]
